import Mathlib

/-!
Verification development for the oneiromancer repository.

The repository is a Rust tool that submits decompiled pseudo-code to a local
LLM endpoint (the Ollama API) and applies the returned rename suggestions to
the text.  This file gives a shallow embedding of the relevant code:

* the word-boundary rewrite loop of `run` (src/lib.rs, lines 155-162),
  including the fragment of regex syntax it exercises (the code interpolates
  `original_name` unescaped into the pattern `\b{original_name}\b`);
* the Ollama API layer (src/ollama.rs): request construction, URL
  computation, and response parsing (a small serde_json-style JSON parser);
* the error type and the library entry points `analyze_code`, `analyze_file`
  and `run` (src/oneiromancer.rs, src/lib.rs), with the process environment,
  the file system and the HTTP endpoint modelled as explicit parameters.

Texts are `List Char` / `String`; effects are explicit state passing.
-/

namespace Oneiromancer

/-! ## Word-boundary rewrite engine (src/lib.rs, lines 155-162)

The code builds, for each rename suggestion, the pattern
`\b{original_name}\b` via `Regex::new` (the `regex` crate) and applies
`replace_all` to the current pseudo-code.  We model the fragment of the
regex crate's semantics that these patterns exercise: a compiled name is a
sequence of single-character elements (a literal character, or `.` matching
any character except a newline), wrapped between two word-boundary
assertions.  Word characters are modelled as ASCII alphanumerics plus
underscore (the identifiers appearing in the claims are ASCII). -/

/-- A word character for `\b` purposes: alphanumeric or underscore. -/
def isWordChar (c : Char) : Bool := c.isAlphanum || c == '_'

/-- Wordness of an optional character; `none` (outside the text) is not a
word character. -/
def isWordOpt : Option Char → Bool
  | none => false
  | some c => isWordChar c

/-- The `\b` assertion between a left and a right neighbour: exactly one of
the two sides is a word character. -/
def isBoundary (l r : Option Char) : Bool := isWordOpt l != isWordOpt r

/-- One single-character element of a compiled pattern: a literal character,
or `.` (any character except a newline). -/
inductive RElem
  | lit (c : Char)
  | dot
deriving DecidableEq

/-- Whether a pattern element matches one character of the haystack. -/
def elemMatches : RElem → Char → Bool
  | .lit c, d => c == d
  | .dot, d => d != '\n'

/-- Whether the body of the pattern matches a prefix of the text (each
element consumes exactly one character). -/
def patMatchesPrefix : List RElem → List Char → Bool
  | [], _ => true
  | _ :: _, [] => false
  | e :: p, c :: t => elemMatches e c && patMatchesPrefix p t

/-- Whether `\b p \b` matches at the current position: `p` matches a prefix
of `text`, the boundary before the first matched character holds (against
`prev`, the character just before the current position), and the boundary
after the last matched character holds.  For an empty `p` both assertions
collapse to the boundary between `prev` and the head of `text`. -/
def matchWordPatAt (p : List RElem) (prev : Option Char) (text : List Char) : Bool :=
  patMatchesPrefix p text &&
  isBoundary prev text.head? &&
  isBoundary (if p.isEmpty then prev else (text.take p.length).getLast?)
    ((text.drop p.length).head?)

/-- The scanning loop of `replace_all`: walk the text left to right, replace
each leftmost non-overlapping match of `\b p \b` by `rep`, and continue
after the matched characters (after an empty match, advance one character).
`fuel` is a structural bound; it is always called with more fuel than there
are characters left, so the `0` case is never reached. -/
def replaceGo (p : List RElem) (rep : List Char) : Nat → Option Char → List Char → List Char
  | 0, _, text => text
  | _ + 1, prev, [] => if matchWordPatAt p prev [] then rep else []
  | fuel + 1, prev, c :: rest =>
    if matchWordPatAt p prev (c :: rest) then
      if p.isEmpty then
        rep ++ c :: replaceGo p rep fuel (some c) rest
      else
        rep ++ replaceGo p rep fuel ((List.take p.length (c :: rest)).getLast?)
          (List.drop p.length (c :: rest))
    else c :: replaceGo p rep fuel (some c) rest

/-- `replace_all` of `\b p \b` on `text`, with `prev` the character just
before the current position (`none` at the start of the haystack). -/
def replaceFrom (p : List RElem) (rep : List Char) (prev : Option Char) (text : List Char) :
    List Char :=
  replaceGo p rep (text.length + 1) prev text

/-- `Regex::new(&format!(r"\b{original_name}\b"))?.replace_all(text, rep)`
for a successfully compiled name `p`. -/
def replaceAllWordPat (p : List RElem) (rep : List Char) (text : List Char) : List Char :=
  replaceFrom p rep none text

/-- Regex metacharacters, as interpreted by the `regex` crate outside
character classes. -/
def metaChars : List Char :=
  ['(', ')', '[', ']', '\x7b', '\x7d', '\\', '*', '+', '?', '|', '^', '$']

/-- How `Regex::new` interprets the interpolated (unescaped!) `original_name`
inside `\b{original_name}\b`: ordinary characters are literals, `.` matches
any character except a newline, and `none` models a pattern-compile error.
This models the fragment of regex-crate syntax exercised by the theorems
below: the names used there consist of non-metacharacter characters and `.`,
plus `(` and `[`, which do fail to compile in the regex crate (unclosed
group / unclosed character class).  The remaining metacharacters are
conservatively mapped to `none` and are not used in any theorem. -/
def parseName : List Char → Option (List RElem)
  | [] => some []
  | c :: rest =>
    if c = '.' then (parseName rest).map fun p => RElem.dot :: p
    else if metaChars.contains c then none
    else (parseName rest).map fun p => RElem.lit c :: p

/-- Variable renaming suggestion (src/oneiromancer.rs). -/
structure Variable where
  original_name : String
  new_name : String
deriving DecidableEq

/-- One iteration of the rename loop in `run` (src/lib.rs, lines 160-161):
compile `\b{original_name}\b` — with `original_name` interpolated as it is,
unescaped — and on success replace all matches by `new_name`.  A compile
failure is surfaced as the generic (anyhow) error with context
"Failed to compile regex". -/
def applyVariable (text : String) (v : Variable) : Except String String :=
  match parseName v.original_name.data with
  | none => .error "Failed to compile regex"
  | some p => .ok (String.mk (replaceAllWordPat p v.new_name.data text.data))

/-- The rename loop of `run` (src/lib.rs, lines 155-162): apply the
suggestions strictly in order, each one to the current, possibly already
rewritten, text. -/
def rewriteVariables (text : String) : List Variable → Except String String
  | [] => .ok text
  | v :: rest =>
    match applyVariable text v with
    | .error e => .error e
    | .ok t => rewriteVariables t rest

/-- Modelled from the spec: the rewrite step as §4.2 of the specification
describes it, with `original_name` escaped before being compiled, so that it
is matched only as a literal character sequence (the source code in
src/lib.rs line 160 does not escape).  Every character of the name becomes a
literal pattern element and compilation never fails. -/
def applyVariableEscaped (text : String) (v : Variable) : Except String String :=
  .ok (String.mk
    (replaceAllWordPat (v.original_name.data.map RElem.lit) v.new_name.data text.data))

/-! ## JSON values and a serde_json-style parser

`OllamaResponse::parse` (src/ollama.rs, lines 50-57) runs
`serde_json::from_str::<OneiromancerResults>` on the inner `response`
string, and `send` decodes the HTTP body into an `OllamaResponse`.  We model
the parser: whitespace-tolerant JSON values (null, booleans, numbers kept as
raw text, strings with the standard escapes, arrays, objects), requiring the
whole input to be consumed.  Error messages are modelled (serde_json's exact
wording is not reproduced); \uXXXX escapes are decoded without surrogate
pairing and duplicate object keys resolve to the first occurrence, corners
no theorem below exercises. -/

/-- A JSON value; numbers are kept as their raw text (no theorem inspects
them). -/
inductive Json
  | null
  | bool (b : Bool)
  | num (raw : String)
  | str (s : String)
  | arr (items : List Json)
  | obj (fields : List (String × Json))

/-- JSON whitespace. -/
def isWsChar (c : Char) : Bool := c == ' ' || c == '\t' || c == '\n' || c == '\r'

/-- Skip leading JSON whitespace. -/
def skipWs (l : List Char) : List Char := l.dropWhile isWsChar

/-- The character denoted by a single-character string escape, if valid. -/
def escChar : Char → Option Char
  | '"' => some '"'
  | '\\' => some '\\'
  | '/' => some '/'
  | 'b' => some '\x08'
  | 'f' => some '\x0c'
  | 'n' => some '\n'
  | 'r' => some '\r'
  | 't' => some '\t'
  | _ => none

/-- The value of a hexadecimal digit, if any. -/
def hexVal (c : Char) : Option Nat :=
  if '0' ≤ c ∧ c ≤ '9' then some (c.toNat - '0'.toNat)
  else if 'a' ≤ c ∧ c ≤ 'f' then some (c.toNat - 'a'.toNat + 10)
  else if 'A' ≤ c ∧ c ≤ 'F' then some (c.toNat - 'A'.toNat + 10)
  else none

/-- Parse the remainder of a JSON string (the opening quote has been
consumed), returning its contents and the rest of the input. -/
def parseStringRest : Nat → List Char → Except String (String × List Char)
  | 0, _ => .error "recursion limit exceeded"
  | _ + 1, [] => .error "EOF while parsing a string"
  | fuel + 1, c :: rest =>
    if c = '"' then .ok ("", rest)
    else if c = '\\' then
      match rest with
      | [] => .error "EOF while parsing a string"
      | 'u' :: h1 :: h2 :: h3 :: h4 :: rest2 =>
        match hexVal h1, hexVal h2, hexVal h3, hexVal h4 with
        | some a, some b, some c', some d =>
          match parseStringRest fuel rest2 with
          | .error e => .error e
          | .ok (s, r) =>
            .ok (String.mk (Char.ofNat (((a * 16 + b) * 16 + c') * 16 + d) :: s.data), r)
        | _, _, _, _ => .error "invalid unicode escape"
      | e :: rest2 =>
        match escChar e with
        | none => .error "invalid escape"
        | some d =>
          match parseStringRest fuel rest2 with
          | .error e' => .error e'
          | .ok (s, r) => .ok (String.mk (d :: s.data), r)
    else if c.toNat < 32 then .error "control character in string"
    else
      match parseStringRest fuel rest with
      | .error e => .error e
      | .ok (s, r) => .ok (String.mk (c :: s.data), r)

/-- Characters that may occur in a JSON number token. -/
def isNumChar (c : Char) : Bool :=
  c.isDigit || c == '-' || c == '+' || c == '.' || c == 'e' || c == 'E'

/-- Validate an optional exponent part followed by the end of a number
token. -/
def expOk : List Char → Bool
  | [] => true
  | c :: rest =>
    if c = 'e' ∨ c = 'E' then
      let afterSign := if rest.head? = some '+' ∨ rest.head? = some '-' then rest.drop 1 else rest
      let ds := afterSign.takeWhile Char.isDigit
      decide (ds ≠ []) && decide (afterSign.drop ds.length = [])
    else false

/-- Light validation of a JSON number token: optional minus, an integer part
with no leading zero, an optional fraction and an optional exponent. -/
def validNumber (tok : List Char) : Bool :=
  let afterSign := if tok.head? = some '-' then tok.drop 1 else tok
  let intPart := afterSign.takeWhile Char.isDigit
  let afterInt := afterSign.drop intPart.length
  let fracOk :=
    match afterInt.head? with
    | some '.' =>
      let frac := (afterInt.drop 1).takeWhile Char.isDigit
      decide (frac ≠ []) && expOk (afterInt.drop (1 + frac.length))
    | _ => expOk afterInt
  decide (intPart ≠ []) &&
    !(decide (intPart.head? = some '0') && decide (intPart.length > 1)) && fracOk

/-- Parse a JSON number token at the head of the input. -/
def parseNumber (input : List Char) : Except String (Json × List Char) :=
  let tok := input.takeWhile isNumChar
  if validNumber tok then .ok (.num (String.mk tok), input.drop tok.length)
  else .error "invalid number"

/-- Parse the items of a non-empty JSON array, given a parser `pv` for one
value; the opening bracket (and any following whitespace) has been consumed
and the input is known not to start with `]`. -/
def parseItems (pv : List Char → Except String (Json × List Char)) :
    Nat → List Char → Except String (List Json × List Char)
  | 0, _ => .error "recursion limit exceeded"
  | fuel + 1, input =>
    match pv input with
    | .error e => .error e
    | .ok (v, r) =>
      match skipWs r with
      | ',' :: r2 =>
        match parseItems pv fuel r2 with
        | .error e => .error e
        | .ok (vs, r3) => .ok (v :: vs, r3)
      | ']' :: r2 => .ok ([v], r2)
      | _ => .error "expected comma or bracket"

/-- Parse the fields of a non-empty JSON object, given a parser `pv` for one
value; the opening brace (and any following whitespace) has been consumed. -/
def parseFields (pv : List Char → Except String (Json × List Char)) :
    Nat → List Char → Except String (List (String × Json) × List Char)
  | 0, _ => .error "recursion limit exceeded"
  | fuel + 1, input =>
    match input with
    | '"' :: r =>
      match parseStringRest (r.length + 1) r with
      | .error e => .error e
      | .ok (key, r2) =>
        match skipWs r2 with
        | ':' :: r3 =>
          match pv r3 with
          | .error e => .error e
          | .ok (v, r4) =>
            match skipWs r4 with
            | ',' :: r5 =>
              match parseFields pv fuel (skipWs r5) with
              | .error e => .error e
              | .ok (fs, r6) => .ok ((key, v) :: fs, r6)
            | '\x7d' :: r5 => .ok ([(key, v)], r5)
            | _ => .error "expected comma or brace"
        | _ => .error "expected colon"
    | _ => .error "key must be a string"

/-- Parse one JSON value from the (whitespace-trimmed) input, recursing into
nested values through `ih`. -/
def parseValueStep (ih : List Char → Except String (Json × List Char)) (input : List Char) :
    Except String (Json × List Char) :=
  match skipWs input with
  | [] => .error "EOF while parsing a value"
  | c :: rest =>
    if c = '"' then
      match parseStringRest (rest.length + 1) rest with
      | .error e => .error e
      | .ok (s, r) => .ok (.str s, r)
    else if c = '[' then
      match skipWs rest with
      | ']' :: r2 => .ok (.arr [], r2)
      | r2 =>
        match parseItems ih (r2.length + 1) r2 with
        | .error e => .error e
        | .ok (vs, r3) => .ok (.arr vs, r3)
    else if c = '\x7b' then
      match skipWs rest with
      | '\x7d' :: r2 => .ok (.obj [], r2)
      | r2 =>
        match parseFields ih (r2.length + 1) r2 with
        | .error e => .error e
        | .ok (fs, r3) => .ok (.obj fs, r3)
    else if c = 'n' then
      match rest with
      | 'u' :: 'l' :: 'l' :: r => .ok (.null, r)
      | _ => .error "expected value"
    else if c = 't' then
      match rest with
      | 'r' :: 'u' :: 'e' :: r => .ok (.bool true, r)
      | _ => .error "expected value"
    else if c = 'f' then
      match rest with
      | 'a' :: 'l' :: 's' :: 'e' :: r => .ok (.bool false, r)
      | _ => .error "expected value"
    else if c.isDigit || c = '-' then parseNumber (c :: rest)
    else .error "expected value"

/-- Parse one JSON value; the fuel bounds the nesting depth and every level
of nesting consumes at least one character, so `input.length + 1` is always
enough. -/
def parseValue : Nat → List Char → Except String (Json × List Char)
  | 0 => fun _ => .error "recursion limit exceeded"
  | fuel + 1 => parseValueStep (parseValue fuel)

/-- `serde_json::from_str`, value part: parse a complete JSON document,
rejecting trailing input. -/
def jsonFromStr (s : String) : Except String Json :=
  match parseValue (s.data.length + 1) s.data with
  | .error e => .error e
  | .ok (v, rest) => if (skipWs rest).isEmpty then .ok v else .error "trailing characters"

/-! ## Data model, error type and the Ollama API layer
(src/oneiromancer.rs, src/ollama.rs) -/

/-- Code analysis results (src/oneiromancer.rs, lines 80-89). -/
structure OneiromancerResults where
  function_name : String
  comment : String
  «variables» : List Variable
deriving DecidableEq

/-- An underlying `std::io::Error`, modelled by its message. -/
structure IoError where
  msg : String
deriving DecidableEq

/-- An underlying `ureq::Error` (transport or HTTP failure, including a
body that fails to decode in `read_json`), modelled by its message. -/
structure UreqError where
  msg : String
deriving DecidableEq

/-- An underlying `serde_json::Error`, modelled by its message. -/
structure SerdeJsonError where
  msg : String
deriving DecidableEq

/-- Oneiromancer error type (src/oneiromancer.rs, lines 14-25): a closed sum
with exactly these three cases, each wrapping its underlying cause. -/
inductive OneiromancerError
  | fileReadFailed (e : IoError)
  | ollamaQueryFailed (e : UreqError)
  | responseParseFailed (e : SerdeJsonError)
deriving DecidableEq

/-- The failure kind of an `OneiromancerError` (the tag of the variant). -/
inductive ErrorKind
  | fileReadFailed
  | ollamaQueryFailed
  | responseParseFailed
deriving DecidableEq

/-- The kind of each `OneiromancerError` value. -/
def OneiromancerError.kind : OneiromancerError → ErrorKind
  | .fileReadFailed _ => .fileReadFailed
  | .ollamaQueryFailed _ => .ollamaQueryFailed
  | .responseParseFailed _ => .responseParseFailed

/-- Look up a field of a decoded JSON object (first occurrence). -/
def getField (fields : List (String × Json)) (key : String) : Option Json :=
  (fields.find? fun f => f.1 == key).map fun f => f.2

/-- Decode one element of the `variables` array. -/
def decodeVariable : Json → Except String Variable
  | .obj fs =>
    match getField fs "original_name" with
    | some (.str o) =>
      match getField fs "new_name" with
      | some (.str n) => .ok ⟨o, n⟩
      | some _ => .error "invalid type for new_name"
      | none => .error "missing field new_name"
    | some _ => .error "invalid type for original_name"
    | none => .error "missing field original_name"
  | _ => .error "invalid type: expected an object"

/-- Decode the `variables` array elementwise. -/
def decodeVariableList : List Json → Except String (List Variable)
  | [] => .ok []
  | v :: rest =>
    match decodeVariable v with
    | .error e => .error e
    | .ok x =>
      match decodeVariableList rest with
      | .error e => .error e
      | .ok xs => .ok (x :: xs)

/-- serde's derived decoder for `OneiromancerResults`: an object with string
fields `function_name` and `comment` and an array field `variables`
(unknown extra fields are tolerated, as serde's default does). -/
def decodeResults : Json → Except String OneiromancerResults
  | .obj fs =>
    match getField fs "function_name" with
    | some (.str fname) =>
      match getField fs "comment" with
      | some (.str comment) =>
        match getField fs "variables" with
        | some (.arr items) =>
          match decodeVariableList items with
          | .error e => .error e
          | .ok vars => .ok ⟨fname, comment, vars⟩
        | some _ => .error "invalid type for variables"
        | none => .error "missing field variables"
      | some _ => .error "invalid type for comment"
      | none => .error "missing field comment"
    | some _ => .error "invalid type for function_name"
    | none => .error "missing field function_name"
  | _ => .error "invalid type: expected an object"

/-- `serde_json::from_str::<OneiromancerResults>`. -/
def parseOneiromancerResults (s : String) : Except SerdeJsonError OneiromancerResults :=
  match jsonFromStr s with
  | .error m => .error ⟨m⟩
  | .ok v =>
    match decodeResults v with
    | .error m => .error ⟨m⟩
    | .ok r => .ok r

/-- Ollama API response content (src/ollama.rs, lines 44-48). -/
structure OllamaResponse where
  response : String
deriving DecidableEq

/-- `OllamaResponse::parse` (src/ollama.rs, lines 50-57): parse the inner
`response` string as JSON into `OneiromancerResults`; a `serde_json` failure
is converted into `ResponseParseFailed` by the `#[from]` conversion. -/
def OllamaResponse.parse (r : OllamaResponse) : Except OneiromancerError OneiromancerResults :=
  match parseOneiromancerResults r.response with
  | .error e => .error (.responseParseFailed e)
  | .ok v => .ok v

/-- Ollama API request content (src/ollama.rs, lines 7-18). -/
structure OllamaRequest where
  model : String
  prompt : String
  stream : Bool
  format : String
deriving DecidableEq

/-- `OllamaRequest::new` (src/ollama.rs, lines 22-29): the only constructor
used; `stream` is hard-wired to `false` and `format` to `"json"`. -/
def OllamaRequest.new (model prompt : String) : OllamaRequest :=
  ⟨model, prompt, false, "json"⟩

/-- Rust's `str::trim_end_matches('/')`: remove every trailing slash. -/
def trimTrailingSlashes (l : List Char) : List Char :=
  (l.reverse.dropWhile fun c => c == '/').reverse

/-- The request URL computed by `OllamaRequest::send` (src/ollama.rs,
line 35): the base URL with all trailing slashes stripped, concatenated with
the fixed path `/api/generate`. -/
def requestUrl (baseurl : String) : String :=
  String.mk (trimTrailingSlashes baseurl.data) ++ "/api/generate"

/-- The HTTP endpoint, modelled as a function from the request URL and the
posted request to either a transport error or a raw response body. -/
abbrev Endpoint := String → OllamaRequest → Except UreqError String

/-- `read_json::<OllamaResponse>`: decode the response body as a JSON object
with a string field `response`. -/
def decodeOllamaResponse (body : String) : Except String OllamaResponse :=
  match jsonFromStr body with
  | .error m => .error m
  | .ok (.obj fs) =>
    match getField fs "response" with
    | some (.str s) => .ok ⟨s⟩
    | some _ => .error "invalid type for response"
    | none => .error "missing field response"
  | .ok _ => .error "invalid type: expected an object"

/-- `OllamaRequest::send` (src/ollama.rs, lines 34-40): post the request to
`requestUrl baseurl` and decode the body into an `OllamaResponse`.  Both the
transport failure of `send_json` and the decode failure of `read_json` are
`ureq::Error`s, so both surface as `OllamaQueryFailed`. -/
def OllamaRequest.send (oracle : Endpoint) (req : OllamaRequest) (baseurl : String) :
    Except OneiromancerError OllamaResponse :=
  match oracle (requestUrl baseurl) req with
  | .error e => .error (.ollamaQueryFailed e)
  | .ok body =>
    match decodeOllamaResponse body with
    | .error m => .error (.ollamaQueryFailed ⟨m⟩)
    | .ok r => .ok r

/-! ## Configuration, library entry points, and `run`
(src/oneiromancer.rs, src/lib.rs) -/

/-- Default Ollama URL (src/oneiromancer.rs, line 9). -/
def OLLAMA_BASEURL : String := "http://127.0.0.1:11434"

/-- Default Ollama model (src/oneiromancer.rs, line 11). -/
def OLLAMA_MODEL : String := "aidapal"

/-- Oneiromancer configuration (src/oneiromancer.rs, lines 27-32). -/
structure OneiromancerConfig where
  baseurl : String
  model : String
deriving DecidableEq

/-- The process environment, modelled as a map from variable names to
values. -/
abbrev Env := String → Option String

/-- `OneiromancerConfig::default()` (src/oneiromancer.rs, lines 71-78): take
`baseurl` and `model` from the `OLLAMA_BASEURL` and `OLLAMA_MODEL`
environment variables, falling back to the hardcoded defaults. -/
def OneiromancerConfig.default (env : Env) : OneiromancerConfig :=
  ⟨(env "OLLAMA_BASEURL").getD OLLAMA_BASEURL, (env "OLLAMA_MODEL").getD OLLAMA_MODEL⟩

/-- `analyze_code` (src/lib.rs, lines 228-235): build the request, send it,
and parse the inner response. -/
def analyze_code (oracle : Endpoint) (pseudo_code : String) (config : OneiromancerConfig) :
    Except OneiromancerError OneiromancerResults :=
  match (OllamaRequest.new config.model pseudo_code).send oracle config.baseurl with
  | .error e => .error e
  | .ok resp => resp.parse

/-- The file system, modelled as an association list from paths to file
contents. -/
structure FileSys where
  files : List (String × String)
deriving DecidableEq

/-- Open and read a file (`File::open` + `read_to_string`). -/
def FileSys.read (fs : FileSys) (path : String) : Option String :=
  (fs.files.find? fun f => f.1 == path).map fun f => f.2

/-- `File::create_new`: create the file only if no file of that name exists;
fail (returning `none`) otherwise. -/
def FileSys.createNew (fs : FileSys) (path content : String) : Option FileSys :=
  if (fs.read path).isSome then none else some ⟨fs.files ++ [(path, content)]⟩

/-- `analyze_file` (src/lib.rs, lines 281-294): open and read the input
file — an I/O failure becomes `FileReadFailed` through the `#[from]`
conversion on `?` — then run `analyze_code` on its contents. -/
def analyze_file (oracle : Endpoint) (fs : FileSys) (filepath : String)
    (config : OneiromancerConfig) : Except OneiromancerError OneiromancerResults :=
  match fs.read filepath with
  | none => .error (.fileReadFailed ⟨"No such file or directory"⟩)
  | some pseudo_code => analyze_code oracle pseudo_code config

/-- Rust's `Path::with_extension("out.c")` on the final path component:
replace the part after its last dot with `out.c` (a dot at position 0 of the
component marks a hidden file, not an extension), or append `.out.c` when
the component has no extension. -/
def withExtensionOutC (path : String) : String :=
  let l := path.data
  let name := (l.reverse.takeWhile fun c => c != '/').reverse
  let dir := l.take (l.length - name.length)
  let revToDot := name.reverse.dropWhile fun c => c != '.'
  let stem := if revToDot = [] then name else (revToDot.drop 1).reverse
  let stem := if stem = [] then name else stem
  String.mk (dir ++ stem ++ ".out.c".data)

/-- `run` (src/lib.rs, lines 121-182), with terminal output ignored and the
Phrack-style comment formatting (textwrap presentation, lines 142-151)
abstracted as `fmt`: read the input file, analyze it with the
environment-derived default configuration, apply the rename suggestions in
order, and only then create the output file — with `File::create_new`, which
fails if it already exists — writing the function description followed by
the rewritten pseudo-code.  The result is the `anyhow` outcome (an error
message, or `none` on success) paired with the resulting file system. -/
def run (oracle : Endpoint) (env : Env) (fmt : OneiromancerResults → String)
    (fs : FileSys) (filepath : String) : Option String × FileSys :=
  match fs.read filepath with
  | none => (some ("Failed to open " ++ filepath), fs)
  | some pseudo_code =>
    match analyze_code oracle pseudo_code (OneiromancerConfig.default env) with
    | .error _ => (some "Failed to analyze pseudo-code", fs)
    | .ok results =>
      match rewriteVariables pseudo_code results.variables with
      | .error e => (some e, fs)
      | .ok rewritten =>
        match fs.createNew (withExtensionOutC filepath) (fmt results ++ rewritten) with
        | none => (some ("Failed to create " ++ withExtensionOutC filepath), fs)
        | some fs2 => (none, fs2)

/-! ## Definitions used by the verification statements -/

/-- The last character of a list, or the default `d` when the list is empty
(the character standing just before a position, given the characters
already scanned). -/
def lastD : List Char → Option Char → Option Char
  | [], d => d
  | c :: rest, _ => lastD rest (some c)

/-- The number of positions at which `pat` occurs as a (contiguous)
substring of the text. -/
def countOcc (pat : List Char) : List Char → Nat
  | [] => 0
  | c :: rest => (if pat.isPrefixOf (c :: rest) then 1 else 0) + countOcc pat rest

/-- A concrete endpoint whose transport always fails (an unreachable
server). -/
def mockEndpointFail : Endpoint := fun _ _ => .error ⟨"Connection refused"⟩

/-- A concrete endpoint that answers every request with an empty inner
`response` string, as the live endpoint does for empty input code. -/
def mockEndpointEmptyResponse : Endpoint := fun _ _ => .ok "\x7b\"response\": \"\"\x7d"

/-- A concrete empty process environment. -/
def mockEnv : Env := fun _ => none

/-- A concrete comment-block formatter. -/
def mockFmt : OneiromancerResults → String := fun _ => ""

/-- A concrete file system in which the output file name is already
taken. -/
def fsWithOut : FileSys := ⟨[("test.c", "int main;"), ("test.out.c", "old")]⟩

/-- A concrete empty file system. -/
def fsEmpty : FileSys := ⟨[]⟩

/-! ## Lemmas about the rewrite engine -/

lemma data_mk (l : List Char) : (String.mk l).data = l := rfl

lemma isWordOpt_some (c : Char) : isWordOpt (some c) = isWordChar c := rfl

lemma isWordOpt_none : isWordOpt none = false := rfl

lemma matchWordPatAt_nil_single (e : RElem) (prev : Option Char) :
    matchWordPatAt [e] prev [] = false := rfl

lemma matchWordPatAt_single (e : RElem) (prev : Option Char) (c : Char) (rest : List Char) :
    matchWordPatAt [e] prev (c :: rest) =
      (elemMatches e c && (isBoundary prev (some c) && isBoundary (some c) rest.head?)) := by
  simp [matchWordPatAt, patMatchesPrefix, Bool.and_assoc]

lemma replaceFrom_nil (p : List RElem) (rep : List Char) (prev : Option Char) :
    replaceFrom p rep prev [] = if matchWordPatAt p prev [] then rep else [] := rfl

lemma replaceFrom_cons_single (e : RElem) (rep : List Char) (prev : Option Char) (c : Char)
    (rest : List Char) :
    replaceFrom [e] rep prev (c :: rest) =
      if matchWordPatAt [e] prev (c :: rest) then rep ++ replaceFrom [e] rep (some c) rest
      else c :: replaceFrom [e] rep (some c) rest := by
  cases h : matchWordPatAt [e] prev (c :: rest) <;>
    simp [replaceFrom, replaceGo, h, List.length_cons]

lemma noMatch_after_word (x c : Char) (rest : List Char) (prev : Option Char)
    (hx : isWordChar x = true) (hp : isWordOpt prev = true) :
    matchWordPatAt [RElem.lit x] prev (c :: rest) = false := by
  rw [matchWordPatAt_single]
  by_cases hxc : x = c
  · subst hxc
    simp [elemMatches, isBoundary, isWordOpt_some, hp, hx]
  · simp [elemMatches, hxc]

lemma replaceFrom_no_occ (x : Char) (rep : List Char) :
    ∀ (text : List Char) (prev : Option Char), x ∉ text →
      replaceFrom [RElem.lit x] rep prev text = text := by
  intro text
  induction text with
  | nil => intro prev _; rfl
  | cons c rest ih =>
    intro prev hmem
    have hxc : x ≠ c := fun h => hmem (h ▸ List.mem_cons_self c rest)
    have hm : matchWordPatAt [RElem.lit x] prev (c :: rest) = false := by
      rw [matchWordPatAt_single]
      simp [elemMatches, hxc]
    rw [replaceFrom_cons_single, hm,
      ih (some c) (fun h => hmem (List.mem_cons_of_mem c h))]
    simp

/-- Replacing whole-word occurrences of a word character `x` in
`pre ++ x :: post`, when `x` occurs in neither `pre` nor `post` and the
characters adjacent to the marked occurrence are not word characters,
rewrites exactly the marked occurrence. -/
lemma replaceFrom_around (x : Char) (rep : List Char) (hx : isWordChar x = true) :
    ∀ (pre : List Char) (prev : Option Char) (post : List Char), x ∉ pre → x ∉ post →
      isWordOpt (lastD pre prev) = false → isWordOpt post.head? = false →
      replaceFrom [RElem.lit x] rep prev (pre ++ x :: post) = pre ++ rep ++ post := by
  intro pre
  induction pre with
  | nil =>
    intro prev post _ hpost hl hr
    have hm : matchWordPatAt [RElem.lit x] prev (x :: post) = true := by
      rw [matchWordPatAt_single]
      simp [elemMatches, isBoundary, isWordOpt_some, hx, lastD] at *
      simp [hl, hr, hx]
    simp only [List.nil_append]
    rw [replaceFrom_cons_single, hm]
    simp [replaceFrom_no_occ x rep post (some x) hpost]
  | cons d pre' ih =>
    intro prev post hpre hpost hl hr
    have hxd : x ≠ d := fun h => hpre (h ▸ List.mem_cons_self d pre')
    have hm : matchWordPatAt [RElem.lit x] prev (d :: (pre' ++ x :: post)) = false := by
      rw [matchWordPatAt_single]
      simp [elemMatches, hxd]
    rw [List.cons_append, replaceFrom_cons_single, hm]
    simp only [Bool.false_eq_true, if_false]
    rw [ih (some d) post (fun h => hpre (List.mem_cons_of_mem d h)) hpost hl hr]
    simp

/-- After a word character, scanning for `\b x \b` never alters the
upcoming characters as far as a prefix made of word characters reaches:
testing such a prefix against the rewritten text is the same as testing it
against the original. -/
lemma isPrefixOf_replaceFrom (x : Char) (rep : List Char) (hx : isWordChar x = true) :
    ∀ (w : List Char) (prev : Option Char) (text : List Char),
      (∀ a ∈ w, isWordChar a = true) → isWordOpt prev = true →
      w.isPrefixOf (replaceFrom [RElem.lit x] rep prev text) = w.isPrefixOf text := by
  intro w
  induction w with
  | nil => intro prev text _ _; simp [List.isPrefixOf]
  | cons a w' ih =>
    intro prev text hw hp
    cases text with
    | nil =>
      rw [replaceFrom_nil, matchWordPatAt_nil_single]
      simp
    | cons c rest =>
      rw [replaceFrom_cons_single, noMatch_after_word x c rest prev hx hp]
      simp only [Bool.false_eq_true, if_false]
      by_cases hac : a = c
      · subst hac
        have ha : isWordChar a = true := hw a (List.mem_cons_self a w')
        simp only [List.isPrefixOf]
        rw [ih (some a) rest (fun b hb => hw b (List.mem_cons_of_mem a hb))
          (by rw [isWordOpt_some]; exact ha)]
      · have : (a == c) = false := beq_eq_false_iff_ne.mpr hac
        simp [List.isPrefixOf, this]

/-- If no occurrence of `pat` can start inside `u` (even reaching past its
end), prepending `u` does not change the number of occurrences of `pat`. -/
lemma countOcc_append_skip (pat : List Char) :
    ∀ (u v : List Char),
      (∀ j, j < u.length → ∀ M, pat.isPrefixOf (u.drop j ++ M) = false) →
      countOcc pat (u ++ v) = countOcc pat v := by
  intro u
  induction u with
  | nil => intro v _; rfl
  | cons a u' ih =>
    intro v h
    have h0 : pat.isPrefixOf (a :: (u' ++ v)) = false := by
      have := h 0 (by simp) v
      simpa using this
    rw [List.cons_append,
      show countOcc pat (a :: (u' ++ v)) =
        (if pat.isPrefixOf (a :: (u' ++ v)) then 1 else 0) + countOcc pat (u' ++ v) from rfl,
      h0]
    simp only [Bool.false_eq_true, if_false, Nat.zero_add]
    exact ih v fun j hj M => h (j + 1) (by simpa using hj) M

/-- Core counting lemma: replacing whole-word occurrences of the word
character `x` by `rep` preserves the number of occurrences of a pattern
`pat` of word characters, provided no occurrence of `pat` can start inside
an inserted `rep`, and `pat` cannot start at a whole-word occurrence of
`x`. -/
lemma countOcc_replaceFrom (x : Char) (rep pat : List Char)
    (hx : isWordChar x = true)
    (hpat : ∀ a ∈ pat, isWordChar a = true)
    (hstart : ∀ j, j < rep.length → ∀ M, pat.isPrefixOf (rep.drop j ++ M) = false)
    (hmatch0 : ∀ rest : List Char, isBoundary (some x) rest.head? = true →
      pat.isPrefixOf (x :: rest) = false) :
    ∀ (text : List Char) (prev : Option Char),
      countOcc pat (replaceFrom [RElem.lit x] rep prev text) = countOcc pat text := by
  cases pat with
  | nil =>
    exfalso
    have h := hmatch0 [] (by simp [isBoundary, isWordOpt_some, isWordOpt_none, hx])
    simp [List.isPrefixOf] at h
  | cons p ps =>
    intro text
    induction text with
    | nil => intro prev; rfl
    | cons c rest ih =>
      intro prev
      cases hm : matchWordPatAt [RElem.lit x] prev (c :: rest) with
      | false =>
        rw [replaceFrom_cons_single, hm]
        simp only [Bool.false_eq_true, if_false]
        have hpre : (p :: ps).isPrefixOf (c :: replaceFrom [RElem.lit x] rep (some c) rest) =
            (p :: ps).isPrefixOf (c :: rest) := by
          by_cases hpc : p = c
          · subst hpc
            have hpw : isWordChar p = true := hpat p (List.mem_cons_self p ps)
            simp only [List.isPrefixOf]
            rw [isPrefixOf_replaceFrom x rep hx ps (some p) rest
              (fun b hb => hpat b (List.mem_cons_of_mem p hb))
              (by rw [isWordOpt_some]; exact hpw)]
          · have : (p == c) = false := beq_eq_false_iff_ne.mpr hpc
            simp [List.isPrefixOf, this]
        simp only [countOcc, hpre, ih (some c)]
      | true =>
        have hsingle := matchWordPatAt_single (RElem.lit x) prev c rest
        rw [hm] at hsingle
        have hconj := hsingle.symm
        rw [Bool.and_eq_true, Bool.and_eq_true] at hconj
        obtain ⟨hxc, _, hb2⟩ := hconj
        have hcx : x = c := by
          simpa [elemMatches] using hxc
        subst hcx
        rw [replaceFrom_cons_single, hm]
        simp only [if_true]
        rw [countOcc_append_skip (p :: ps) rep
          (replaceFrom [RElem.lit x] rep (some x) rest) hstart]
        rw [ih (some x)]
        have h0 : (p :: ps).isPrefixOf (x :: rest) = false := hmatch0 rest hb2
        simp [countOcc, h0]

lemma isPrefixOf_cons_of_head_ne {a b : Char} (h : a ≠ b) (l m : List Char) :
    (a :: l).isPrefixOf (b :: m) = false := by
  simp [List.isPrefixOf, beq_eq_false_iff_ne.mpr h]

lemma isPrefixOf_cons_of_second_ne {a b c d : Char} (h : b ≠ d) (l m : List Char) :
    (a :: b :: l).isPrefixOf (c :: d :: m) = false := by
  simp [List.isPrefixOf, beq_eq_false_iff_ne.mpr h]

/-- No occurrence of `big` can start inside an inserted `index`. -/
lemma big_no_start_in_index :
    ∀ j, j < ("index".data).length → ∀ M,
      ("big".data).isPrefixOf (("index".data).drop j ++ M) = false := by
  have e : ("index".data) = ['i', 'n', 'd', 'e', 'x'] := rfl
  have eb : ("big".data) = ['b', 'i', 'g'] := rfl
  rw [e, eb]
  intro j hj M
  have hj5 : j < 5 := by simpa using hj
  interval_cases j <;>
    simp only [List.drop] <;>
    exact isPrefixOf_cons_of_head_ne (by decide) _ _

/-- No occurrence of `i_count` can start inside an inserted `index`. -/
lemma icount_no_start_in_index :
    ∀ j, j < ("index".data).length → ∀ M,
      ("i_count".data).isPrefixOf (("index".data).drop j ++ M) = false := by
  have e : ("index".data) = ['i', 'n', 'd', 'e', 'x'] := rfl
  have eb : ("i_count".data) = ['i', '_', 'c', 'o', 'u', 'n', 't'] := rfl
  rw [e, eb]
  intro j hj M
  have hj5 : j < 5 := by simpa using hj
  interval_cases j
  · exact isPrefixOf_cons_of_second_ne (by decide) _ _
  · exact isPrefixOf_cons_of_head_ne (by decide) _ _
  · exact isPrefixOf_cons_of_head_ne (by decide) _ _
  · exact isPrefixOf_cons_of_head_ne (by decide) _ _
  · exact isPrefixOf_cons_of_head_ne (by decide) _ _

/-- `big` cannot start at a whole-word occurrence of `i`. -/
lemma big_no_start_at_i :
    ∀ rest : List Char, isBoundary (some 'i') rest.head? = true →
      ("big".data).isPrefixOf ('i' :: rest) = false := by
  have eb : ("big".data) = ['b', 'i', 'g'] := rfl
  rw [eb]
  intro rest _
  exact isPrefixOf_cons_of_head_ne (by decide) _ _

/-- `i_count` cannot start at a whole-word occurrence of `i`: its second
character `_` is a word character, which the right-hand boundary of the
match excludes. -/
lemma icount_no_start_at_i :
    ∀ rest : List Char, isBoundary (some 'i') rest.head? = true →
      ("i_count".data).isPrefixOf ('i' :: rest) = false := by
  have eb : ("i_count".data) = ['i', '_', 'c', 'o', 'u', 'n', 't'] := rfl
  rw [eb]
  intro rest h
  cases rest with
  | nil => simp [List.isPrefixOf]
  | cons d r =>
    by_cases hd : d = '_'
    · subst hd
      rw [List.head?_cons] at h
      exact absurd h (by decide)
    · exact isPrefixOf_cons_of_second_ne (fun he => hd he.symm) _ _

/-- Removing one trailing slash commutes with removing all of them. -/
lemma trimTrailingSlashes_concat (l : List Char) :
    trimTrailingSlashes (l ++ ['/']) = trimTrailingSlashes l := by
  simp [trimTrailingSlashes, List.dropWhile]

/-! ## The claims -/

/-- Claim C1 — refuted by the code (code bug).  The rewrite step of `run`
(src/lib.rs, line 160) interpolates `original_name` into
`\b{original_name}\b` without escaping it, so pattern metacharacters in the
name are interpreted as pattern syntax, not matched as literal text: for the
suggestion `a.c → z` applied to the text `abc`, the compiled pattern treats
`.` as a wildcard and rewrites the whole text to `z`, and the name `(`
fails to compile; the escaped rewrite step required by the spec
(`applyVariableEscaped`) leaves both texts unchanged. -/
theorem c1_unescaped_name_is_pattern_syntax :
    applyVariable "abc" ⟨"a.c", "z"⟩ = .ok "z" ∧
    applyVariable "x" ⟨"(", "y"⟩ = .error "Failed to compile regex" ∧
    applyVariableEscaped "abc" ⟨"a.c", "z"⟩ = .ok "abc" ∧
    applyVariableEscaped "x" ⟨"(", "y"⟩ = .ok "x" :=
  ⟨rfl, rfl, rfl, rfl⟩

/-- Claim C2 — counterexample.  When an `original_name` cannot be compiled
(here the name `(`), the rewrite step of `run` fails with the generic anyhow
error "Failed to compile regex", not with a dedicated `PatternCompileFailed`
case; and the closed error type `OneiromancerError` has exactly the kinds
file-read, transport and parse — there is no pattern case at all. -/
theorem c2_pattern_failure_is_untyped :
    applyVariable "x" ⟨"(", "y"⟩ = Except.error "Failed to compile regex" ∧
    ∀ e : OneiromancerError, e.kind = ErrorKind.fileReadFailed ∨
      e.kind = ErrorKind.ollamaQueryFailed ∨ e.kind = ErrorKind.responseParseFailed := by
  refine ⟨rfl, ?_⟩
  intro e
  cases e <;> simp [OneiromancerError.kind]

/-- Claim C2 — amended: if an `original_name` cannot be compiled into a
word-boundary search pattern, the rewrite step fails with the generic
(anyhow) error with context "Failed to compile regex"; the public error type
`OneiromancerError` is a closed sum type, but its cases are `FileReadFailed`,
`OllamaQueryFailed` and `ResponseParseFailed` — file-read, transport and
parse — with no pattern-compile case. -/
theorem c2_amended_error_taxonomy (name new text : String)
    (h : parseName name.data = none) :
    applyVariable text ⟨name, new⟩ = .error "Failed to compile regex" ∧
    ∀ e : OneiromancerError, e.kind = ErrorKind.fileReadFailed ∨
      e.kind = ErrorKind.ollamaQueryFailed ∨ e.kind = ErrorKind.responseParseFailed := by
  constructor
  · simp [applyVariable, h]
  · intro e
    cases e <;> simp [OneiromancerError.kind]

/-- Witness for the amended claim C2, at the name `[` (an unclosed character
class, which the regex crate rejects). -/
theorem c2_amended_error_taxonomy_witness :
    applyVariable "x" ⟨"[", "y"⟩ = Except.error "Failed to compile regex" :=
  (c2_amended_error_taxonomy "[" "y" "x" rfl).1

/-- Claim C3 — confirmed.  Suggestions are applied in order, each on the
current text: applying `[a → b, b → c]` to a text with a whole-word
occurrence of `a` (marked by the `pre`/`post` decomposition, with `a` and
`b` occurring nowhere else) yields `c` where `a` stood — the first
substitution's output `b` is caught up by the second substitution. -/
theorem c3_sequential_rewrite (pre post : List Char)
    (hpa : 'a' ∉ pre) (hpb : 'b' ∉ pre) (hqa : 'a' ∉ post) (hqb : 'b' ∉ post)
    (hl : isWordOpt (lastD pre none) = false) (hr : isWordOpt post.head? = false) :
    rewriteVariables (String.mk (pre ++ 'a' :: post)) [⟨"a", "b"⟩, ⟨"b", "c"⟩] =
      .ok (String.mk (pre ++ 'c' :: post)) := by
  have h1 : replaceFrom [RElem.lit 'a'] ['b'] none (pre ++ 'a' :: post) = pre ++ 'b' :: post := by
    have := replaceFrom_around 'a' ['b'] (by decide) pre none post hpa hqa hl hr
    simpa using this
  have h2 : replaceFrom [RElem.lit 'b'] ['c'] none (pre ++ 'b' :: post) = pre ++ 'c' :: post := by
    have := replaceFrom_around 'b' ['c'] (by decide) pre none post hpb hqb hl hr
    simpa using this
  have pa : parseName ("a" : String).data = some [RElem.lit 'a'] := rfl
  have pb : parseName ("b" : String).data = some [RElem.lit 'b'] := rfl
  have ha1 : applyVariable (String.mk (pre ++ 'a' :: post)) ⟨"a", "b"⟩ =
      .ok (String.mk (pre ++ 'b' :: post)) := by
    simp [applyVariable, pa, replaceAllWordPat, data_mk, h1]
  have ha2 : applyVariable (String.mk (pre ++ 'b' :: post)) ⟨"b", "c"⟩ =
      .ok (String.mk (pre ++ 'c' :: post)) := by
    simp [applyVariable, pb, replaceAllWordPat, data_mk, h2]
  simp [rewriteVariables, ha1, ha2]

/-- Witness for claim C3 on a concrete pseudo-code line. -/
theorem c3_sequential_rewrite_witness :
    rewriteVariables (String.mk ("int x = ".data ++ 'a' :: " + y;".data))
        [⟨"a", "b"⟩, ⟨"b", "c"⟩] =
      .ok (String.mk ("int x = ".data ++ 'c' :: " + y;".data)) :=
  c3_sequential_rewrite "int x = ".data " + y;".data (by decide) (by decide) (by decide)
    (by decide) (by decide) (by decide)

/-- Claim C4 — confirmed.  The substitution is whole-word: for every text,
renaming `i` to `index` leaves every occurrence of `big` and of `i_count`
unchanged (their number of occurrences is preserved — a match of `i` is
never adjacent to a word character, so it can touch neither pattern, and no
occurrence of either pattern can arise from an inserted `index`). -/
theorem c4_whole_word_preserves_big_and_icount (text : List Char) :
    applyVariable (String.mk text) ⟨"i", "index"⟩ =
      .ok (String.mk (replaceAllWordPat [RElem.lit 'i'] "index".data text)) ∧
    countOcc "big".data (replaceAllWordPat [RElem.lit 'i'] "index".data text) =
      countOcc "big".data text ∧
    countOcc "i_count".data (replaceAllWordPat [RElem.lit 'i'] "index".data text) =
      countOcc "i_count".data text := by
  refine ⟨rfl, ?_, ?_⟩
  · exact countOcc_replaceFrom 'i' "index".data "big".data (by decide) (by decide)
      big_no_start_in_index big_no_start_at_i text none
  · exact countOcc_replaceFrom 'i' "index".data "i_count".data (by decide) (by decide)
      icount_no_start_in_index icount_no_start_at_i text none

/-- Claim C5 — confirmed.  Parsing the empty inner `response` string (what
the endpoint returns for empty input) fails with `ResponseParseFailed`;
every failure of `OllamaResponse::parse` is a `ResponseParseFailed`; and
`analyze_code` against an endpoint answering with an empty inner `response`
fails with `ResponseParseFailed` for every input code and configuration. -/
theorem c5_empty_response_parse_fails :
    OllamaResponse.parse ⟨""⟩ =
      .error (.responseParseFailed ⟨"EOF while parsing a value"⟩) ∧
    (∀ (s : String) (e : OneiromancerError), OllamaResponse.parse ⟨s⟩ = .error e →
      e.kind = ErrorKind.responseParseFailed) ∧
    (∀ (code : String) (config : OneiromancerConfig),
      analyze_code mockEndpointEmptyResponse code config =
        .error (.responseParseFailed ⟨"EOF while parsing a value"⟩)) := by
  refine ⟨rfl, ?_, fun code config => rfl⟩
  intro s e h
  cases hp : parseOneiromancerResults s with
  | error a =>
    simp [OllamaResponse.parse, hp] at h
    rw [← h]
    rfl
  | ok v => simp [OllamaResponse.parse, hp] at h

/-- Witness for claim C5: a response that is valid JSON but misses the
expected fields also fails, with kind `ResponseParseFailed`. -/
theorem c5_empty_response_parse_fails_witness :
    (OneiromancerError.responseParseFailed ⟨"missing field function_name"⟩).kind =
      ErrorKind.responseParseFailed :=
  c5_empty_response_parse_fails.2.1 "\x7b\x7d"
    (.responseParseFailed ⟨"missing field function_name"⟩) rfl

/-- Claim C6 — confirmed.  `run` creates the output file only after analysis
and the full rewrite have succeeded — on any failure the file system is
returned unchanged — and it writes with `File::create_new`: when a file
with the output name already exists, `run` fails and changes nothing. -/
theorem c6_no_partial_output (oracle : Endpoint) (env : Env)
    (fmt : OneiromancerResults → String) (fs : FileSys) (filepath : String) :
    ((run oracle env fmt fs filepath).1.isSome = true →
      (run oracle env fmt fs filepath).2 = fs) ∧
    ((fs.read (withExtensionOutC filepath)).isSome = true →
      (run oracle env fmt fs filepath).1.isSome = true ∧
        (run oracle env fmt fs filepath).2 = fs) := by
  cases h1 : fs.read filepath with
  | none => simp [run, h1]
  | some pseudo_code =>
    cases h2 : analyze_code oracle pseudo_code (OneiromancerConfig.default env) with
    | error e => simp [run, h1, h2]
    | ok results =>
      cases h3 : rewriteVariables pseudo_code results.variables with
      | error e => simp [run, h1, h2, h3]
      | ok rewritten =>
        cases h4 : fs.createNew (withExtensionOutC filepath) (fmt results ++ rewritten) with
        | none => simp [run, h1, h2, h3, h4]
        | some fs2 =>
          have hno : (fs.read (withExtensionOutC filepath)).isSome = false := by
            by_cases hh : (fs.read (withExtensionOutC filepath)).isSome = true
            · exfalso
              unfold FileSys.createNew at h4
              rw [if_pos hh] at h4
              exact Option.noConfusion h4
            · simpa using hh
          simp [run, h1, h2, h3, h4, hno]

/-- Witness for claim C6: with the output name `test.out.c` already taken,
`run` on `test.c` fails and leaves the file system unchanged. -/
theorem c6_no_partial_output_witness :
    (fsWithOut.read (withExtensionOutC "test.c")).isSome = true ∧
    ((run mockEndpointFail mockEnv mockFmt fsWithOut "test.c").1.isSome = true ∧
      (run mockEndpointFail mockEnv mockFmt fsWithOut "test.c").2 = fsWithOut) :=
  ⟨rfl, (c6_no_partial_output mockEndpointFail mockEnv mockFmt fsWithOut "test.c").2 rfl⟩

/-- Claim C7 — confirmed.  `OllamaRequest::new`, the only construction path,
always sets `stream` to `false` and `format` to `"json"`. -/
theorem c7_request_stream_format (model prompt : String) :
    (OllamaRequest.new model prompt).stream = false ∧
    (OllamaRequest.new model prompt).format = "json" :=
  ⟨rfl, rfl⟩

/-- Claim C8 — confirmed.  The request URL is the base URL with all trailing
slashes stripped, concatenated with the fixed path `/api/generate`; in
particular appending any number of trailing slashes to a base URL does not
change the request URL. -/
theorem c8_request_url (baseurl : String) (k : Nat) :
    requestUrl baseurl = String.mk (trimTrailingSlashes baseurl.data) ++ "/api/generate" ∧
    requestUrl (String.mk (baseurl.data ++ List.replicate k '/')) = requestUrl baseurl := by
  refine ⟨rfl, ?_⟩
  have key : ∀ m, trimTrailingSlashes (baseurl.data ++ List.replicate m '/') =
      trimTrailingSlashes baseurl.data := by
    intro m
    induction m with
    | zero => simp
    | succ n ih =>
      rw [List.replicate_succ', ← List.append_assoc, trimTrailingSlashes_concat, ih]
  simp [requestUrl, data_mk, key k]

/-- Claim C9 — confirmed.  Applying an empty suggestion list is the
identity: the rename loop of `run` performs no iteration and leaves the text
unchanged. -/
theorem c9_rewrite_empty_identity (text : String) :
    rewriteVariables text [] = .ok text :=
  rfl

/-- Claim C10 — confirmed.  The public error type has exactly the three
variants `FileReadFailed`, `OllamaQueryFailed` and `ResponseParseFailed`
(every value has one of the three kinds, and the kinds are pairwise
distinct), and `analyze_file` surfaces a failure to open or read the input
file as `FileReadFailed`, wrapping the underlying I/O error. -/
theorem c10_error_variants (oracle : Endpoint) (fs : FileSys) (filepath : String)
    (config : OneiromancerConfig) (h : fs.read filepath = none) :
    analyze_file oracle fs filepath config =
      .error (.fileReadFailed ⟨"No such file or directory"⟩) ∧
    (∀ e : OneiromancerError, e.kind = ErrorKind.fileReadFailed ∨
      e.kind = ErrorKind.ollamaQueryFailed ∨ e.kind = ErrorKind.responseParseFailed) ∧
    (ErrorKind.fileReadFailed ≠ ErrorKind.ollamaQueryFailed ∧
      ErrorKind.fileReadFailed ≠ ErrorKind.responseParseFailed ∧
      ErrorKind.ollamaQueryFailed ≠ ErrorKind.responseParseFailed) := by
  refine ⟨?_, ?_, by decide⟩
  · unfold analyze_file
    rw [h]
  · intro e
    cases e <;> simp [OneiromancerError.kind]

/-- Witness for claim C10 on an empty file system. -/
theorem c10_error_variants_witness :
    analyze_file mockEndpointFail fsEmpty "invalid.c" (OneiromancerConfig.default mockEnv) =
      .error (.fileReadFailed ⟨"No such file or directory"⟩) :=
  (c10_error_variants mockEndpointFail fsEmpty "invalid.c"
    (OneiromancerConfig.default mockEnv) rfl).1

end Oneiromancer
